import Mathlib

/-!
Verification of the Backlog firearm-tracking application's core logic:
the South African working-day calendar (`utils/holidays.ts`), the status
fetch/parse pipeline (`utils/statusFetcher.ts`), and the notification
scheduler (`services/notificationService.ts`), shallowly embedded in Lean.

Dates are modelled at day granularity as integers counting days since the
Unix epoch 1970-01-01 (the proleptic Gregorian calendar, which is what the
JavaScript `Date` object implements); instants used for notification fire
times are modelled as integer milliseconds since the epoch.  JavaScript
`Math.floor` division is `Int.fdiv` and the JavaScript `%` operator is
`Int.tmod` (both agree with ordinary division on the non-negative operands
that occur for real calendar years).
-/

namespace Backlog

/-- Milliseconds per calendar day, as used by the scheduler's day arithmetic. -/
def dayMs : Int := 86400000

/-- Model of the JavaScript `Date` calendar: the day number (days since
1970-01-01) of the civil date `y-m-d`, proleptic Gregorian. -/
def daysFromCivil (y m d : Int) : Int :=
  let y2 := if m ≤ 2 then y - 1 else y
  let era := (if 0 ≤ y2 then y2 else y2 - 399).fdiv 400
  let yoe := y2 - era * 400
  let doy := (153 * (m + (if 2 < m then -3 else 9)) + 2).fdiv 5 + d - 1
  let doe := yoe * 365 + yoe.fdiv 4 - yoe.fdiv 100 + doy
  era * 146097 + doe - 719468

/-- Model of the JavaScript `Date` calendar: the civil date `(year, month,
day)` of a day number (days since 1970-01-01). -/
def civilFromDays (z : Int) : Int × Int × Int :=
  let z2 := z + 719468
  let era := z2.fdiv 146097
  let doe := z2 - era * 146097
  let yoe := (doe - doe.fdiv 1460 + doe.fdiv 36524 - doe.fdiv 146096).fdiv 365
  let y := yoe + era * 400
  let doy := doe - (365 * yoe + yoe.fdiv 4 - yoe.fdiv 100)
  let mp := (5 * doy + 2).fdiv 153
  let d := doy - (153 * mp + 2).fdiv 5 + 1
  let m := mp + (if mp < 10 then 3 else -9)
  (y + (if m ≤ 2 then 1 else 0), m, d)

/-- The year component of a day number (JavaScript `getFullYear`). -/
def yearOf (z : Int) : Int := (civilFromDays z).1

/-- The `(month, day)` components of a day number; this is the information
carried by date-fns `format(date, MM-dd)` (zero-padded formatting of
month and day is injective, so the pair is the faithful abstraction of
the string). -/
def monthDayOf (z : Int) : Int × Int := ((civilFromDays z).2.1, (civilFromDays z).2.2)

/-- JavaScript `Date.getDay`: 0 = Sunday … 6 = Saturday.  1970-01-01 was a
Thursday (= 4). -/
def dayOfWeekJS (z : Int) : Int := (z + 4).emod 7

/-- date-fns `isWeekend`: the day falls on Saturday or Sunday. -/
def isWeekendJS (z : Int) : Bool := dayOfWeekJS z == 0 || dayOfWeekJS z == 6

/-- `FIXED_HOLIDAYS` from `utils/holidays.ts`: the ten fixed South African
public holidays as `(month, day)` pairs. -/
def FIXED_HOLIDAYS : List (Int × Int) :=
  [(1, 1), (3, 21), (4, 27), (5, 1), (6, 16), (8, 9), (9, 24), (12, 16), (12, 25), (12, 26)]

/-- `getEasterDate` from `utils/holidays.ts`: the anonymous/Meeus Gregorian
Easter algorithm, returning Easter Sunday's `(month, day)` for the given
year.  JavaScript `Math.floor(x / y)` is `Int.fdiv`, JavaScript `%` is
`Int.tmod`. -/
def getEasterDate (year : Int) : Int × Int :=
  let a := year.tmod 19
  let b := year.fdiv 100
  let c := year.tmod 100
  let d := b.fdiv 4
  let e := b.tmod 4
  let f := (b + 8).fdiv 25
  let g := (b - f + 1).fdiv 3
  let h := (19 * a + b - d - g + 15).tmod 30
  let i := c.fdiv 4
  let k := c.tmod 4
  let l := (32 + 2 * e + 2 * i - h - k).tmod 7
  let m := (a + 11 * h + 22 * l).fdiv 451
  let month := (h + l - 7 * m + 114).fdiv 31
  let day := (h + l - 7 * m + 114).tmod 31 + 1
  (month, day)

/-- The day number of Easter Sunday for the given year (the `Date` object
built by `getEasterDate`). -/
def easterDayNumber (year : Int) : Int :=
  daysFromCivil year (getEasterDate year).1 (getEasterDate year).2

/-- `getEasterBasedHolidays` from `utils/holidays.ts`: the `(month, day)`
pairs of Good Friday (Easter − 2 days) and Family Day (Easter + 1 day);
`setDate` arithmetic on a `Date` is day-number arithmetic. -/
def getEasterBasedHolidays (year : Int) : List (Int × Int) :=
  [monthDayOf (easterDayNumber year - 2), monthDayOf (easterDayNumber year + 1)]

/-- `isPublicHoliday` from `utils/holidays.ts`. -/
def isPublicHoliday (z : Int) : Bool :=
  if monthDayOf z ∈ FIXED_HOLIDAYS then true
  else decide (monthDayOf z ∈ getEasterBasedHolidays (yearOf z))

/-- `isWorkingDay` from `utils/holidays.ts`. -/
def isWorkingDay (z : Int) : Bool := !isWeekendJS z && !isPublicHoliday z

/-- The day-by-day walk of `calculateWorkingDays` from `utils/holidays.ts`,
with explicit fuel so that the recursion is structural; the fuel supplied
below is exactly the number of loop iterations (`current ≤ endDate`). -/
def calcWalk (endDate : Int) : Nat → Int → Nat
  | 0, _ => 0
  | fuel + 1, current =>
    if current ≤ endDate then
      (if isWorkingDay current then 1 else 0) + calcWalk endDate fuel (current + 1)
    else 0

/-- `calculateWorkingDays` from `utils/holidays.ts`: walks day-by-day from
`startDate` while `current ≤ endDate`, counting working days. -/
def calculateWorkingDays (startDate endDate : Int) : Nat :=
  calcWalk endDate (endDate + 1 - startDate).toNat startDate

/-- Specification-side count, following the spec's words: the number of
working days in the inclusive range `[start, end]`. -/
def specWorkingDayCount (s e : Int) : Nat :=
  ((Finset.Icc s e).filter (fun d => isWorkingDay d = true)).card

/-- Specification-side predicate, following the claim's words: `z` is a South
African public holiday when its month-day pair is one of the ten fixed pairs,
or equals the month-day of Good Friday (Easter Sunday − 2 days) or of Family
Day (Easter Sunday + 1 day) of `z`'s year, with Easter Sunday computed by the
Meeus algorithm. -/
def specIsSAHoliday (z : Int) : Prop :=
  monthDayOf z ∈ FIXED_HOLIDAYS ∨
  monthDayOf z = monthDayOf (easterDayNumber (yearOf z) - 2) ∨
  monthDayOf z = monthDayOf (easterDayNumber (yearOf z) + 1)

instance (z : Int) : Decidable (specIsSAHoliday z) := by
  unfold specIsSAHoliday; infer_instance

theorem calcWalk_eq_count (e : Int) :
    ∀ (n : Nat) (s : Int), (e + 1 - s).toNat = n →
      calcWalk e n s = specWorkingDayCount s e := by
  intro n
  induction n with
  | zero =>
    intro s hn
    have hlt : e < s := by omega
    unfold calcWalk specWorkingDayCount
    rw [Finset.Icc_eq_empty_of_lt hlt]
    simp
  | succ n ih =>
    intro s hn
    have hse : s ≤ e := by omega
    unfold calcWalk
    rw [if_pos hse, ih (s + 1) (by omega)]
    have hins : Finset.Icc s e = insert s (Finset.Icc (s + 1) e) := by
      ext d
      simp only [Finset.mem_Icc, Finset.mem_insert]
      omega
    have hnot : s ∉ Finset.Icc (s + 1) e := by
      simp only [Finset.mem_Icc]
      omega
    unfold specWorkingDayCount
    rw [hins, Finset.filter_insert]
    by_cases hw : isWorkingDay s = true
    · rw [if_pos hw, if_pos hw,
        Finset.card_insert_of_not_mem (fun hmem => hnot (Finset.mem_of_mem_filter s hmem))]
      omega
    · rw [if_neg hw, if_neg hw]
      omega

theorem calculateWorkingDays_eq_count (s e : Int) :
    calculateWorkingDays s e = specWorkingDayCount s e :=
  calcWalk_eq_count e _ s rfl

/-- C1: for every pair of dates, `calculateWorkingDays` returns the number of
working days in the inclusive range `[start, end]` (counting `start` when it
is itself a working day); it returns 0 whenever `start > end`, and for a
single-day range `[d, d]` it returns 1 if `d` is a working day and 0
otherwise. -/
theorem claim_C1_calculateWorkingDays (s e : Int) :
    calculateWorkingDays s e = specWorkingDayCount s e ∧
    (e < s → calculateWorkingDays s e = 0) ∧
    calculateWorkingDays s s = (if isWorkingDay s then 1 else 0) := by
  refine ⟨calculateWorkingDays_eq_count s e, ?_, ?_⟩
  · intro hlt
    rw [calculateWorkingDays_eq_count]
    unfold specWorkingDayCount
    rw [Finset.Icc_eq_empty_of_lt hlt]
    simp
  · rw [calculateWorkingDays_eq_count]
    unfold specWorkingDayCount
    rw [Finset.Icc_self, Finset.filter_singleton]
    by_cases hw : isWorkingDay s = true
    · rw [if_pos hw, if_pos hw, Finset.card_singleton]
    · rw [if_neg hw, if_neg hw, Finset.card_empty]

/-- Witness for C1: day number 5 is 1970-01-06, a Tuesday and not a holiday;
day number 0 is 1970-01-01, New Year's Day. -/
theorem claim_C1_witness :
    calculateWorkingDays 5 2 = specWorkingDayCount 5 2 ∧
    calculateWorkingDays 5 2 = 0 ∧
    calculateWorkingDays 5 5 = (if isWorkingDay 5 then 1 else 0) ∧
    calculateWorkingDays 5 5 = 1 ∧
    calculateWorkingDays 0 0 = 0 :=
  ⟨(claim_C1_calculateWorkingDays 5 2).1,
   (claim_C1_calculateWorkingDays 5 2).2.1 (by decide),
   (claim_C1_calculateWorkingDays 5 5).2.2,
   by decide, by decide⟩

/-- C2: `isWorkingDay` returns false exactly on Saturdays, Sundays and South
African public holidays (the ten fixed month-day pairs plus Good Friday =
Easter − 2 and Family Day = Easter + 1, Easter by the Meeus algorithm); for
2024 Easter Sunday is 03-31, Good Friday 03-29 and Family Day 04-01. -/
theorem claim_C2_isWorkingDay (z : Int) :
    (isWorkingDay z = false ↔
      (dayOfWeekJS z = 6 ∨ dayOfWeekJS z = 0 ∨ specIsSAHoliday z)) ∧
    getEasterDate 2024 = (3, 31) ∧
    monthDayOf (easterDayNumber 2024 - 2) = (3, 29) ∧
    monthDayOf (easterDayNumber 2024 + 1) = (4, 1) := by
  refine ⟨?_, by decide, by decide, by decide⟩
  have h1 : isWorkingDay z = false ↔ (isWeekendJS z = true ∨ isPublicHoliday z = true) := by
    unfold isWorkingDay
    cases isWeekendJS z <;> cases isPublicHoliday z <;> simp
  have h2 : isWeekendJS z = true ↔ (dayOfWeekJS z = 6 ∨ dayOfWeekJS z = 0) := by
    unfold isWeekendJS
    simp only [Bool.or_eq_true, beq_iff_eq]
    tauto
  have h3 : isPublicHoliday z = true ↔ specIsSAHoliday z := by
    unfold isPublicHoliday specIsSAHoliday getEasterBasedHolidays
    by_cases hf : monthDayOf z ∈ FIXED_HOLIDAYS
    · simp [hf]
    · simp only [if_neg hf, decide_eq_true_eq, List.mem_cons, List.mem_singleton,
        List.not_mem_nil, or_false]
      tauto
  rw [h1, h2, h3, or_assoc]

/-- Witness for C2: day number 19813 is 2024-03-31 (Easter Sunday, a Sunday),
and day 19811 is Good Friday 2024-03-29: a weekday that is a holiday. -/
theorem claim_C2_witness :
    (isWorkingDay 19811 = false ↔
      (dayOfWeekJS 19811 = 6 ∨ dayOfWeekJS 19811 = 0 ∨ specIsSAHoliday 19811)) ∧
    isWorkingDay 19811 = false ∧ dayOfWeekJS 19811 ≠ 6 ∧ dayOfWeekJS 19811 ≠ 0 :=
  ⟨(claim_C2_isWorkingDay 19811).1, by decide, by decide, by decide⟩

/-! ## Status fetch pipeline (`utils/statusFetcher.ts`) -/

/-- `CORS_PROXIES` from `utils/statusFetcher.ts`: the ordered list of proxy
transports. -/
def CORS_PROXIES : List String :=
  ["https://api.allorigins.win/get?url=",
   "https://corsproxy.io/?",
   "https://cors-anywhere.herokuapp.com/",
   "https://api.codetabs.com/v1/proxy?quest="]

/-- The observable outcome of one proxy transport attempt: either the `fetch`
call itself rejects (timeout, network error), or a response arrives with an
`ok` flag, a status line, and its body already normalized to an HTML string
(the allorigins JSON envelope's `contents` field, or the raw text body of the
other proxies). -/
inductive AttemptResult where
  | fetchFailed (msg : String)
  | response (ok : Bool) (statusLine : String) (contents : String)
deriving DecidableEq

/-- Model of the emptiness test `!html || html.trim().length === 0`: the body
holds no non-whitespace character (trimming strips leading and trailing
whitespace, so the trimmed length is 0 exactly when every character is
whitespace). -/
def isBlank (s : String) : Bool := s.toList.all Char.isWhitespace

/-- The per-proxy body of the `for` loop in `fetchWithProxy`: a thrown fetch
error propagates; a non-2xx response throws `HTTP …`; an empty (trimmed) body
throws `Empty response received`; otherwise the normalized HTML is returned. -/
def processAttempt : AttemptResult → Except String String
  | .fetchFailed msg => .error msg
  | .response ok statusLine contents =>
    if ok = false then .error ("HTTP " ++ statusLine)
    else if isBlank contents then .error "Empty response received"
    else .ok contents

/-- The loop of `fetchWithProxy`, carrying `lastError` across iterations; when
the proxy list is exhausted it throws the aggregated error built from the last
underlying cause. -/
def fetchWithProxyGo : List AttemptResult → Option String → Except String String
  | [], lastError =>
    .error ("All CORS proxies failed. Last error: " ++ lastError.getD "undefined")
  | a :: rest, _lastError =>
    match processAttempt a with
    | .ok html => .ok html
    | .error e => fetchWithProxyGo rest (some e)

/-- `fetchWithProxy` from `utils/statusFetcher.ts`, as a function of the
outcome each proxy transport in order would produce. -/
def fetchWithProxy (attempts : List AttemptResult) : Except String String :=
  fetchWithProxyGo attempts none

theorem fetchWithProxyGo_ok (a : AttemptResult) (rest : List AttemptResult)
    (last : Option String) (html : String) (h : processAttempt a = .ok html) :
    fetchWithProxyGo (a :: rest) last = .ok html := by
  unfold fetchWithProxyGo
  rw [h]

theorem fetchWithProxyGo_error (a : AttemptResult) (rest : List AttemptResult)
    (last : Option String) (e : String) (h : processAttempt a = .error e) :
    fetchWithProxyGo (a :: rest) last = fetchWithProxyGo rest (some e) := by
  simp only [fetchWithProxyGo, h]

theorem fetchWithProxyGo_skips_failures (pre : List AttemptResult) :
    ∀ (rest : List AttemptResult) (last : Option String),
      (∀ b ∈ pre, ∃ e, processAttempt b = .error e) →
      ∃ last2, fetchWithProxyGo (pre ++ rest) last = fetchWithProxyGo rest last2 ∧
        (pre = [] → last2 = last) ∧
        (∀ b, pre.getLast? = some b → ∃ e, processAttempt b = .error e ∧ last2 = some e) := by
  induction pre with
  | nil =>
    intro rest last _
    exact ⟨last, rfl, fun _ => rfl, by simp⟩
  | cons a pre ih =>
    intro rest last hfail
    obtain ⟨e, he⟩ := hfail a (List.mem_cons_self a pre)
    rw [List.cons_append, fetchWithProxyGo_error a _ _ e he]
    obtain ⟨last2, heq, hnil, hlast⟩ := ih rest (some e) (fun b hb => hfail b (List.mem_cons_of_mem a hb))
    refine ⟨last2, heq, by simp, ?_⟩
    intro b hb
    cases hpre : pre with
    | nil =>
      subst hpre
      simp only [List.getLast?_singleton, Option.some.injEq] at hb
      subst hb
      exact ⟨e, he, hnil rfl⟩
    | cons c cs =>
      apply hlast
      rw [← hb, hpre, List.getLast?_cons_cons]

/-- C3: `fetchWithProxy` tries the proxies strictly in the fixed order
(allorigins, corsproxy.io, cors-anywhere, codetabs); a failing attempt
(thrown fetch error, non-2xx status, or empty body) advances to the next
proxy; the first successful attempt's normalized HTML is returned; when all
attempts fail the result is one aggregated error carrying the last underlying
cause; and when the first three proxies fail and the fourth succeeds the
result equals what the fourth proxy alone would have produced. -/
theorem claim_C3_fetchWithProxy (a1 a2 a3 a4 : AttemptResult) (e1 e2 e3 : String)
    (h1 : processAttempt a1 = .error e1)
    (h2 : processAttempt a2 = .error e2)
    (h3 : processAttempt a3 = .error e3) :
    CORS_PROXIES = ["https://api.allorigins.win/get?url=",
      "https://corsproxy.io/?",
      "https://cors-anywhere.herokuapp.com/",
      "https://api.codetabs.com/v1/proxy?quest="] ∧
    (∀ (a : AttemptResult) (rest : List AttemptResult) (html : String),
      processAttempt a = .ok html → fetchWithProxy (a :: rest) = .ok html) ∧
    (∀ (pre : List AttemptResult) (a : AttemptResult) (rest : List AttemptResult) (html : String),
      (∀ b ∈ pre, ∃ e, processAttempt b = .error e) →
      processAttempt a = .ok html →
      fetchWithProxy (pre ++ a :: rest) = .ok html) ∧
    (∀ (attempts : List AttemptResult) (b : AttemptResult) (e : String),
      (∀ c ∈ attempts, ∃ e2, processAttempt c = .error e2) →
      attempts.getLast? = some b → processAttempt b = .error e →
      fetchWithProxy attempts = .error ("All CORS proxies failed. Last error: " ++ e)) ∧
    fetchWithProxy [a1, a2, a3, a4] = fetchWithProxy [a4] := by
  refine ⟨rfl, ?_, ?_, ?_, ?_⟩
  · intro a rest html h
    exact fetchWithProxyGo_ok a rest none html h
  · intro pre a rest html hfail h
    obtain ⟨last2, heq, -, -⟩ := fetchWithProxyGo_skips_failures pre (a :: rest) none hfail
    rw [fetchWithProxy, heq, fetchWithProxyGo_ok a rest last2 html h]
  · intro attempts b e hfail hlastmem hb
    obtain ⟨last2, heq, -, hlast⟩ :=
      fetchWithProxyGo_skips_failures attempts [] none (by simpa using hfail)
    rw [List.append_nil] at heq
    obtain ⟨e2, he2, hl2⟩ := hlast b hlastmem
    rw [he2] at hb
    cases hb
    rw [fetchWithProxy, heq, hl2]
    rfl
  · rw [fetchWithProxy, fetchWithProxyGo_error a1 _ _ e1 h1,
      fetchWithProxyGo_error a2 _ _ e2 h2, fetchWithProxyGo_error a3 _ _ e3 h3]
    unfold fetchWithProxy fetchWithProxyGo
    cases h4 : processAttempt a4 <;> rfl

/-- Witness for C3: three concrete failing attempts (network reject, HTTP 500,
empty body) followed by a successful one. -/
theorem claim_C3_witness :
    fetchWithProxy [AttemptResult.fetchFailed "timeout",
        AttemptResult.response false "500" "x",
        AttemptResult.response true "200" "",
        AttemptResult.response true "200" "<html>ok</html>"] =
      fetchWithProxy [AttemptResult.response true "200" "<html>ok</html>"] ∧
    fetchWithProxy [AttemptResult.fetchFailed "timeout",
        AttemptResult.response false "500" "x",
        AttemptResult.response true "200" "",
        AttemptResult.response true "200" "<html>ok</html>"] = .ok "<html>ok</html>" ∧
    fetchWithProxy [AttemptResult.fetchFailed "timeout",
        AttemptResult.response false "500" "x"] =
      .error "All CORS proxies failed. Last error: HTTP 500" :=
  ⟨(claim_C3_fetchWithProxy (AttemptResult.fetchFailed "timeout")
      (AttemptResult.response false "500" "x")
      (AttemptResult.response true "200" "")
      (AttemptResult.response true "200" "<html>ok</html>")
      "timeout" "HTTP 500" "Empty response received"
      rfl rfl rfl).2.2.2.2,
   rfl, rfl⟩

/-- `FirearmStatus` from `types/firearm` as populated by
`fetchFirearmStatus`. -/
structure FirearmStatus where
  type : String
  number : String
  calibre : String
  make : String
  status : String
  description : String
  nextStep : String
  workingDaysPending : Nat
  isOverdue : Bool
deriving DecidableEq

/-- `StatusFetchResult`: either `{success: false, error}` or
`{success: true, status}`. -/
inductive StatusFetchResult where
  | failure (error : String)
  | success (status : FirearmStatus)
deriving DecidableEq

/-- The information `fetchFirearmStatus` reads off the fetched HTML document:
the first `table.table` element, if present, as its list of `tr` rows (each
row the list of its `td` cells' trimmed text contents, header row included),
and whether a `form` element is present. -/
structure ParsedDoc where
  resultsTable : Option (List (List String))
  hasForm : Bool
deriving DecidableEq

/-- JavaScript string `||` defaulting: the empty string is the only falsy
string value. -/
def jsOr (s dflt : String) : String := if s = "" then dflt else s

def noMatchError : String :=
  "No results found. Please verify your reference numbers are correct."

def formatChangedError : String :=
  "No results table found on SAPS website. The page format may have changed."

def noDataRowsError : String :=
  "No data rows found in results table. No matching applications found."

def insufficientColumnsError (n : Nat) : String :=
  "Insufficient data columns found (" ++ toString n ++ "/10). Make sure your information is correct."

/-- The parse-and-build tail of `fetchFirearmStatus` from
`utils/statusFetcher.ts` (lines 111–184): classify the document, require a
data row with at least 10 cells, then map columns 0, 1, 3, 4, 7, 8, 9 with
JavaScript `||` defaulting, and attach `calculateWorkingDays(dateApplied,
today)` and the `> 90` overdue flag. -/
def parseAndBuildStatus (doc : ParsedDoc) (dateApplied today : Int) : StatusFetchResult :=
  match doc.resultsTable with
  | none =>
    if doc.hasForm then .failure noMatchError
    else .failure formatChangedError
  | some rows =>
    if rows.length ≤ 1 then .failure noDataRowsError
    else
      let cellValues := rows.getD 1 []
      if cellValues.length < 10 then .failure (insufficientColumnsError cellValues.length)
      else
        let workingDaysPending := calculateWorkingDays dateApplied today
        .success
          { type := jsOr (cellValues.getD 0 "") "Unknown",
            number := jsOr (cellValues.getD 1 "") "Unknown",
            calibre := jsOr (cellValues.getD 3 "") "Unknown",
            make := jsOr (cellValues.getD 4 "") "Unknown",
            status := jsOr (cellValues.getD 7 "") "Unknown",
            description := jsOr (cellValues.getD 8 "") "No description available",
            nextStep := jsOr (cellValues.getD 9 "") "No next step information",
            workingDaysPending := workingDaysPending,
            isOverdue := decide (90 < workingDaysPending) }

theorem jsOr_ne_empty (s d : String) (hd : d ≠ "") : jsOr s d ≠ "" := by
  unfold jsOr
  split_ifs with hs
  · exact hd
  · exact hs

theorem jsOr_of_empty (s d : String) (hs : s = "") : jsOr s d = d := by
  simp [jsOr, hs]

/-- C4: the parse step returns the `no match` failure when no results table
but a form is present, a distinct `site format changed` failure when neither
is present, a schema-mismatch failure when the first data row has fewer than
10 cells, and on at least 10 cells succeeds with application type from column
0, number from column 1, calibre from column 3, make from column 4, status
from column 7, description from column 8 and next-step from column 9. -/
theorem claim_C4_parseClassification (doc : ParsedDoc) (dateApplied today : Int) :
    (doc.resultsTable = none → doc.hasForm = true →
      parseAndBuildStatus doc dateApplied today = .failure noMatchError) ∧
    (doc.resultsTable = none → doc.hasForm = false →
      parseAndBuildStatus doc dateApplied today = .failure formatChangedError) ∧
    noMatchError ≠ formatChangedError ∧
    (∀ rows : List (List String), doc.resultsTable = some rows → 1 < rows.length →
      (rows.getD 1 []).length < 10 →
      parseAndBuildStatus doc dateApplied today =
        .failure (insufficientColumnsError (rows.getD 1 []).length)) ∧
    (∀ rows : List (List String), doc.resultsTable = some rows → 1 < rows.length →
      10 ≤ (rows.getD 1 []).length →
      parseAndBuildStatus doc dateApplied today = .success
        { type := jsOr ((rows.getD 1 []).getD 0 "") "Unknown",
          number := jsOr ((rows.getD 1 []).getD 1 "") "Unknown",
          calibre := jsOr ((rows.getD 1 []).getD 3 "") "Unknown",
          make := jsOr ((rows.getD 1 []).getD 4 "") "Unknown",
          status := jsOr ((rows.getD 1 []).getD 7 "") "Unknown",
          description := jsOr ((rows.getD 1 []).getD 8 "") "No description available",
          nextStep := jsOr ((rows.getD 1 []).getD 9 "") "No next step information",
          workingDaysPending := calculateWorkingDays dateApplied today,
          isOverdue := decide (90 < calculateWorkingDays dateApplied today) }) := by
  refine ⟨?_, ?_, by decide, ?_, ?_⟩
  · intro hnone hform
    unfold parseAndBuildStatus
    rw [hnone, hform]
    rfl
  · intro hnone hform
    unfold parseAndBuildStatus
    rw [hnone, hform]
    rfl
  · intro rows hsome hlen hcells
    simp only [parseAndBuildStatus, hsome]
    rw [if_neg (by omega), if_pos hcells]
  · intro rows hsome hlen hcells
    simp only [parseAndBuildStatus, hsome]
    rw [if_neg (by omega), if_neg (by omega)]

/-- Witness for C4: four concrete documents, one per branch; day number 5
(1970-01-06, a working day) is used for both dates, so one working day is
pending. -/
theorem claim_C4_witness :
    parseAndBuildStatus ⟨none, true⟩ 5 5 = .failure noMatchError ∧
    parseAndBuildStatus ⟨none, false⟩ 5 5 = .failure formatChangedError ∧
    parseAndBuildStatus ⟨some [[], ["a", "b", "c"]], false⟩ 5 5 =
      .failure (insufficientColumnsError 3) ∧
    parseAndBuildStatus
        ⟨some [[], ["A", "B", "C", "D", "E", "F", "G", "H", "I", "J"]], false⟩ 5 5 =
      .success ⟨"A", "B", "D", "E", "H", "I", "J", 1, false⟩ := by
  refine ⟨?_, ?_, ?_, ?_⟩
  · exact (claim_C4_parseClassification ⟨none, true⟩ 5 5).1 rfl rfl
  · exact (claim_C4_parseClassification ⟨none, false⟩ 5 5).2.1 rfl rfl
  · exact (claim_C4_parseClassification ⟨some [[], ["a", "b", "c"]], false⟩ 5 5).2.2.2.1
      [[], ["a", "b", "c"]] rfl (by decide) (by decide)
  · have h := (claim_C4_parseClassification
      ⟨some [[], ["A", "B", "C", "D", "E", "F", "G", "H", "I", "J"]], false⟩ 5 5).2.2.2.2
      [[], ["A", "B", "C", "D", "E", "F", "G", "H", "I", "J"]] rfl (by decide) (by decide)
    rw [h]
    decide

/-- C5: every successful status lookup has `workingDaysPending` equal to
`calculateWorkingDays(dateApplied, today)` and `isOverdue` true exactly when
`workingDaysPending` is strictly greater than 90; in particular a pending
count of 95 is overdue. -/
theorem claim_C5_overdueFlag (doc : ParsedDoc) (dateApplied today : Int)
    (st : FirearmStatus)
    (h : parseAndBuildStatus doc dateApplied today = .success st) :
    st.workingDaysPending = calculateWorkingDays dateApplied today ∧
    (st.isOverdue = true ↔ 90 < st.workingDaysPending) ∧
    (st.workingDaysPending = 95 → st.isOverdue = true) := by
  cases hrt : doc.resultsTable with
  | none =>
    simp only [parseAndBuildStatus, hrt] at h
    split_ifs at h
  | some rows =>
    simp only [parseAndBuildStatus, hrt] at h
    by_cases h1 : rows.length ≤ 1
    · rw [if_pos h1] at h
      cases h
    · rw [if_neg h1] at h
      by_cases h2 : (rows.getD 1 []).length < 10
      · rw [if_pos h2] at h
        cases h
      · rw [if_neg h2] at h
        cases h
        refine ⟨rfl, by simp, ?_⟩
        intro h95
        simp only [decide_eq_true_eq]
        simp only [FirearmStatus.workingDaysPending] at h95
        omega

/-- Witness for C5: a concrete successful lookup (one working day pending,
not overdue). -/
theorem claim_C5_witness :
    parseAndBuildStatus
        ⟨some [[], ["A", "B", "C", "D", "E", "F", "G", "H", "I", "J"]], false⟩ 5 5 =
      .success ⟨"A", "B", "D", "E", "H", "I", "J", 1, false⟩ ∧
    (FirearmStatus.workingDaysPending ⟨"A", "B", "D", "E", "H", "I", "J", 1, false⟩ =
        calculateWorkingDays 5 5 ∧
      (FirearmStatus.isOverdue ⟨"A", "B", "D", "E", "H", "I", "J", 1, false⟩ = true ↔
        90 < FirearmStatus.workingDaysPending ⟨"A", "B", "D", "E", "H", "I", "J", 1, false⟩) ∧
      (FirearmStatus.workingDaysPending ⟨"A", "B", "D", "E", "H", "I", "J", 1, false⟩ = 95 →
        FirearmStatus.isOverdue ⟨"A", "B", "D", "E", "H", "I", "J", 1, false⟩ = true)) :=
  ⟨by decide,
   claim_C5_overdueFlag ⟨some [[], ["A", "B", "C", "D", "E", "F", "G", "H", "I", "J"]], false⟩
     5 5 ⟨"A", "B", "D", "E", "H", "I", "J", 1, false⟩ (by decide)⟩

/-- C10: an empty text value in a mapped cell never fails the lookup; the
parse substitutes `Unknown` for type, number, calibre, make and status,
`No description available` for description and `No next step information`
for next-step, so every string field of a successful `FirearmStatus` is
non-empty. -/
theorem claim_C10_placeholders (doc : ParsedDoc) (dateApplied today : Int)
    (st : FirearmStatus)
    (h : parseAndBuildStatus doc dateApplied today = .success st) :
    (st.type ≠ "" ∧ st.number ≠ "" ∧ st.calibre ≠ "" ∧ st.make ≠ "" ∧
      st.status ≠ "" ∧ st.description ≠ "" ∧ st.nextStep ≠ "") ∧
    (∀ rows : List (List String), doc.resultsTable = some rows →
      ((rows.getD 1 []).getD 0 "" = "" → st.type = "Unknown") ∧
      ((rows.getD 1 []).getD 1 "" = "" → st.number = "Unknown") ∧
      ((rows.getD 1 []).getD 3 "" = "" → st.calibre = "Unknown") ∧
      ((rows.getD 1 []).getD 4 "" = "" → st.make = "Unknown") ∧
      ((rows.getD 1 []).getD 7 "" = "" → st.status = "Unknown") ∧
      ((rows.getD 1 []).getD 8 "" = "" → st.description = "No description available") ∧
      ((rows.getD 1 []).getD 9 "" = "" → st.nextStep = "No next step information")) := by
  cases hrt : doc.resultsTable with
  | none =>
    simp only [parseAndBuildStatus, hrt] at h
    split_ifs at h
  | some rows =>
    simp only [parseAndBuildStatus, hrt] at h
    by_cases h1 : rows.length ≤ 1
    · rw [if_pos h1] at h
      cases h
    · rw [if_neg h1] at h
      by_cases h2 : (rows.getD 1 []).length < 10
      · rw [if_pos h2] at h
        cases h
      · rw [if_neg h2] at h
        cases h
        constructor
        · exact ⟨jsOr_ne_empty _ _ (by decide), jsOr_ne_empty _ _ (by decide),
            jsOr_ne_empty _ _ (by decide), jsOr_ne_empty _ _ (by decide),
            jsOr_ne_empty _ _ (by decide), jsOr_ne_empty _ _ (by decide),
            jsOr_ne_empty _ _ (by decide)⟩
        · intro rows2 hsome2
          cases hsome2
          exact ⟨fun he => jsOr_of_empty _ _ he, fun he => jsOr_of_empty _ _ he,
            fun he => jsOr_of_empty _ _ he, fun he => jsOr_of_empty _ _ he,
            fun he => jsOr_of_empty _ _ he, fun he => jsOr_of_empty _ _ he,
            fun he => jsOr_of_empty _ _ he⟩

/-- Witness for C10: a row whose ten cells are all empty yields every
placeholder. -/
theorem claim_C10_witness :
    parseAndBuildStatus ⟨some [[], ["", "", "", "", "", "", "", "", "", ""]], false⟩ 5 5 =
      .success ⟨"Unknown", "Unknown", "Unknown", "Unknown", "Unknown",
        "No description available", "No next step information", 1, false⟩ ∧
    ("Unknown" : String) ≠ "" ∧
    (FirearmStatus.type ⟨"Unknown", "Unknown", "Unknown", "Unknown", "Unknown",
        "No description available", "No next step information", 1, false⟩ ≠ "" ∧
      FirearmStatus.nextStep ⟨"Unknown", "Unknown", "Unknown", "Unknown", "Unknown",
        "No description available", "No next step information", 1, false⟩ ≠ "") :=
  ⟨by decide, by decide,
   ⟨(claim_C10_placeholders ⟨some [[], ["", "", "", "", "", "", "", "", "", ""]], false⟩ 5 5
       ⟨"Unknown", "Unknown", "Unknown", "Unknown", "Unknown",
         "No description available", "No next step information", 1, false⟩ (by decide)).1.1,
    (claim_C10_placeholders ⟨some [[], ["", "", "", "", "", "", "", "", "", ""]], false⟩ 5 5
       ⟨"Unknown", "Unknown", "Unknown", "Unknown", "Unknown",
         "No description available", "No next step information", 1, false⟩ (by decide)).1.2.2.2.2.2.2⟩⟩

/-! ## Notification scheduler (`services/notificationService.ts`)

The scheduler's observable state: the private id counter, the native
capability's pending notifications (`LocalNotifications.schedule` /
`cancel`), and the two persisted schedules.  `setDate` day arithmetic on
expiry dates is millisecond arithmetic with `dayMs` (South Africa has no
daylight-saving shifts). -/

/-- The `extra` payload attached to each scheduled local notification. -/
inductive NotifExtra where
  | firearm (firearmId : String) (daysToExpiry : Nat)
  | appPending (applicationId : String) (workingDays : Nat)
deriving DecidableEq

/-- One notification registered with the native capability: identifier,
title, body, fire time (`schedule.at`, milliseconds) and `extra` payload. -/
structure PendingNotif where
  id : Nat
  title : String
  body : String
  fireAt : Int
  extra : NotifExtra
deriving DecidableEq

/-- `NotificationSchedule` from `services/notificationService.ts`. -/
structure NotificationSchedule where
  firearmId : String
  firearmTitle : String
  expiryDate : String
  notificationIds : List Nat
deriving DecidableEq

/-- `ApplicationNotificationSchedule` from `services/notificationService.ts`. -/
structure ApplicationNotificationSchedule where
  applicationId : String
  applicationRef : String
  notificationId : Nat
deriving DecidableEq

/-- The scheduler state: `notificationCounter`, the native capability's
pending set, and the two persisted schedules. -/
structure NotifState where
  counter : Nat
  pending : List PendingNotif
  schedule : List NotificationSchedule
  appSchedule : List ApplicationNotificationSchedule
deriving DecidableEq

/-- The fields of `FirearmRecord` the scheduler reads: identifier, display
title, the expiry date as an instant (milliseconds of its midnight) and as
the stored string used in notification bodies. -/
structure FirearmRecordM where
  id : String
  title : String
  expiryDate : Int
  expiryDateStr : String
deriving DecidableEq

/-- The fields of `FirearmApplication` the scheduler reads: identifier,
reference number, and the date applied as a day number. -/
structure FirearmApplicationM where
  id : String
  applicationRefNumber : String
  dateApplied : Int
deriving DecidableEq

/-- `intervals` from `scheduleFirearmNotifications`: days before expiry. -/
def notificationIntervals : List Nat := [365, 180, 90, 60, 30, 14, 7, 3, 1]

/-- The fire instant of the reminder `days` days before expiry
(`notificationDate.setDate(expiryDate.getDate() - days)`). -/
def reminderInstant (f : FirearmRecordM) (days : Nat) : Int :=
  f.expiryDate - (days : Int) * dayMs

/-- The loop guard `notificationDate > today`. -/
def futureOffset (f : FirearmRecordM) (now : Int) (days : Nat) : Bool :=
  decide (now < reminderInstant f days)

/-- The severity-graduated title of a firearm expiry reminder. -/
def firearmNotifTitle (days : Nat) : String :=
  if 365 ≤ days then "Firearm License Expiry - 1 Year Notice"
  else if 90 ≤ days then "Firearm License Expiry - " ++ toString days ++ " Days"
  else if 30 ≤ days then "Firearm License Expiry - " ++ toString days ++ " Days"
  else if 7 ≤ days then "URGENT: Firearm License Expiry - " ++ toString days ++ " Days"
  else "CRITICAL: Firearm License Expiry - " ++ toString days ++
    (if days ≠ 1 then " Days" else " Day")

/-- The severity-graduated body of a firearm expiry reminder. -/
def firearmNotifBody (f : FirearmRecordM) (days : Nat) : String :=
  if 365 ≤ days then
    f.title ++ " expires in 1 year (" ++ f.expiryDateStr ++ "). Consider starting renewal process."
  else if 90 ≤ days then
    f.title ++ " expires in " ++ toString days ++ " days (" ++ f.expiryDateStr ++ "). Time to start renewal."
  else if 30 ≤ days then
    f.title ++ " expires in " ++ toString days ++ " days (" ++ f.expiryDateStr ++ "). Renewal required!"
  else if 7 ≤ days then
    f.title ++ " expires in " ++ toString days ++ " days (" ++ f.expiryDateStr ++ "). Renewal URGENT!"
  else
    f.title ++ " expires " ++ (if days = 1 then "tomorrow" else "in " ++ toString days ++ " days") ++
      " (" ++ f.expiryDateStr ++ "). IMMEDIATE ACTION REQUIRED!"

/-- The notification object pushed for one interval. -/
def mkFirearmNotif (f : FirearmRecordM) (id : Nat) (days : Nat) : PendingNotif :=
  { id := id, title := firearmNotifTitle days, body := firearmNotifBody f days,
    fireAt := reminderInstant f days, extra := .firearm f.id days }

/-- The `for (const days of intervals)` loop of `scheduleFirearmNotifications`:
for each interval whose reminder instant is still in the future, take the next
counter value as id and push the notification; `ctr` is the running value of
`notificationCounter`. -/
def buildFirearmNotifs (f : FirearmRecordM) (now : Int) : Nat → List Nat → List PendingNotif
  | _, [] => []
  | ctr, days :: rest =>
    if futureOffset f now days then
      mkFirearmNotif f ctr days :: buildFirearmNotifs f now (ctr + 1) rest
    else buildFirearmNotifs f now ctr rest

/-- `schedule.find(s => s.firearmId === firearmId)`. -/
def findSchedule (schedule : List NotificationSchedule) (fid : String) :
    Option NotificationSchedule :=
  schedule.find? (fun s => decide (s.firearmId = fid))

/-- `cancelFirearmNotifications` from `services/notificationService.ts`:
if a schedule entry with a non-empty id list exists for this firearm, cancel
those ids with the native capability and drop the entry from the persisted
schedule; otherwise do nothing. -/
def cancelFirearmNotifications (st : NotifState) (firearmId : String) : NotifState :=
  match findSchedule st.schedule firearmId with
  | some fs =>
    if fs.notificationIds ≠ [] then
      { st with
        pending := st.pending.filter (fun p => decide (p.id ∉ fs.notificationIds)),
        schedule := st.schedule.filter (fun s => decide (s.firearmId ≠ firearmId)) }
    else st
  | none => st

/-- The `findIndex` / replace-or-push update of the persisted schedule. -/
def upsertSchedule (schedule : List NotificationSchedule)
    (entry : NotificationSchedule) : List NotificationSchedule :=
  match schedule.findIdx? (fun s => decide (s.firearmId = entry.firearmId)) with
  | some i => schedule.set i entry
  | none => schedule ++ [entry]

/-- The tail of `scheduleFirearmNotifications` after the initial cancel:
build the notifications, and when any were produced register them with the
native capability and upsert the persisted schedule entry; the counter
advances once per produced notification. -/
def scheduleFirearmCore (st : NotifState) (f : FirearmRecordM) (now : Int) : NotifState :=
  let notifs := buildFirearmNotifs f now st.counter notificationIntervals
  if 0 < notifs.length then
    { st with
      counter := st.counter + notifs.length,
      pending := st.pending ++ notifs,
      schedule := upsertSchedule st.schedule
        ⟨f.id, f.title, f.expiryDateStr, notifs.map (fun n => n.id)⟩ }
  else
    { st with counter := st.counter + notifs.length }

/-- `scheduleFirearmNotifications` from `services/notificationService.ts`:
cancel any existing reminders for this record, then schedule the new set. -/
def scheduleFirearmNotifications (st : NotifState) (f : FirearmRecordM) (now : Int) :
    NotifState :=
  scheduleFirearmCore (cancelFirearmNotifications st f.id) f now

/-- Does this pending notification belong to firearm `fid`? -/
def isForFirearm (fid : String) (p : PendingNotif) : Bool :=
  match p.extra with
  | .firearm g _ => decide (g = fid)
  | .appPending _ _ => false

/-- The `daysToExpiry` carried in a firearm reminder's `extra`. -/
def daysToExpiryOf (p : PendingNotif) : Nat :=
  match p.extra with
  | .firearm _ d => d
  | .appPending _ _ => 0

theorem buildFirearmNotifs_map_days (f : FirearmRecordM) (now : Int) :
    ∀ (l : List Nat) (ctr : Nat),
      (buildFirearmNotifs f now ctr l).map daysToExpiryOf = l.filter (futureOffset f now) := by
  intro l
  induction l with
  | nil => intro ctr; rfl
  | cons days rest ih =>
    intro ctr
    unfold buildFirearmNotifs
    cases hfo : futureOffset f now days with
    | false =>
      rw [if_neg (by simp [hfo]), ih ctr, List.filter_cons_of_neg (by simp [hfo])]
    | true =>
      rw [if_pos rfl, List.map_cons, ih (ctr + 1), List.filter_cons_of_pos hfo]
      rfl

theorem buildFirearmNotifs_map_id (f : FirearmRecordM) (now : Int) :
    ∀ (l : List Nat) (ctr : Nat),
      (buildFirearmNotifs f now ctr l).map (fun n => n.id) =
        List.range' ctr (l.filter (futureOffset f now)).length := by
  intro l
  induction l with
  | nil => intro ctr; rfl
  | cons days rest ih =>
    intro ctr
    unfold buildFirearmNotifs
    cases hfo : futureOffset f now days with
    | false =>
      rw [if_neg (by simp [hfo]), ih ctr, List.filter_cons_of_neg (by simp [hfo])]
    | true =>
      rw [if_pos rfl, List.map_cons, ih (ctr + 1), List.filter_cons_of_pos hfo,
        List.length_cons, List.range'_succ]
      rfl

theorem buildFirearmNotifs_length (f : FirearmRecordM) (now : Int) (l : List Nat) (ctr : Nat) :
    (buildFirearmNotifs f now ctr l).length = (l.filter (futureOffset f now)).length := by
  rw [← List.length_map (buildFirearmNotifs f now ctr l) daysToExpiryOf,
    buildFirearmNotifs_map_days]

theorem buildFirearmNotifs_mem (f : FirearmRecordM) (now : Int) :
    ∀ (l : List Nat) (ctr : Nat) (p : PendingNotif), p ∈ buildFirearmNotifs f now ctr l →
      isForFirearm f.id p = true ∧ ctr ≤ p.id ∧
      p.fireAt = reminderInstant f (daysToExpiryOf p) ∧
      p.extra = .firearm f.id (daysToExpiryOf p) := by
  intro l
  induction l with
  | nil => intro ctr p hp; cases hp
  | cons days rest ih =>
    intro ctr p hp
    unfold buildFirearmNotifs at hp
    by_cases hfo : futureOffset f now days = true
    · rw [if_pos hfo] at hp
      rcases List.mem_cons.mp hp with hp | hp
      · subst hp
        refine ⟨by simp [isForFirearm, mkFirearmNotif], le_refl _, rfl, rfl⟩
      · obtain ⟨h1, h2, h3, h4⟩ := ih (ctr + 1) p hp
        exact ⟨h1, by omega, h3, h4⟩
    · rw [if_neg hfo] at hp
      exact ih ctr p hp

theorem cancelFirearm_not_found (st : NotifState) (fid : String)
    (hfind : findSchedule st.schedule fid = none) :
    cancelFirearmNotifications st fid = st := by
  simp only [cancelFirearmNotifications, hfind]

theorem counter_add_zero (st : NotifState) : { st with counter := st.counter + 0 } = st := by
  cases st
  rfl

theorem pending_filter_none (pend : List PendingNotif) (fid : String)
    (hpend : ∀ p ∈ pend, isForFirearm fid p = false) :
    pend.filter (isForFirearm fid) = [] :=
  List.filter_eq_nil_iff.mpr (fun p hp => by simp [hpend p hp])

theorem scheduleFirearm_offsets (st : NotifState) (f : FirearmRecordM) (now : Int)
    (hpend : ∀ p ∈ st.pending, isForFirearm f.id p = false)
    (hsched : findSchedule st.schedule f.id = none) :
    ((scheduleFirearmNotifications st f now).pending.filter (isForFirearm f.id)).map
      daysToExpiryOf = notificationIntervals.filter (futureOffset f now) := by
  have hcancel : cancelFirearmNotifications st f.id = st := cancelFirearm_not_found st f.id hsched
  have hfilter_pend := pending_filter_none st.pending f.id hpend
  unfold scheduleFirearmNotifications
  rw [hcancel]
  unfold scheduleFirearmCore
  by_cases hlen : 0 < (buildFirearmNotifs f now st.counter notificationIntervals).length
  · rw [if_pos hlen]
    have hN : (buildFirearmNotifs f now st.counter notificationIntervals).filter
        (isForFirearm f.id) = buildFirearmNotifs f now st.counter notificationIntervals :=
      List.filter_eq_self.mpr
        (fun p hp => (buildFirearmNotifs_mem f now notificationIntervals st.counter p hp).1)
    simp only [List.filter_append, hfilter_pend, hN, List.nil_append]
    exact buildFirearmNotifs_map_days f now notificationIntervals st.counter
  · rw [if_neg hlen]
    have hnil : buildFirearmNotifs f now st.counter notificationIntervals = [] :=
      List.length_eq_zero.mp (by omega)
    have : (notificationIntervals.filter (futureOffset f now)).length = 0 := by
      rw [← buildFirearmNotifs_length f now notificationIntervals st.counter, hnil]
      rfl
    simp only [hfilter_pend, List.map_nil]
    rw [List.length_eq_zero.mp this]

theorem scheduleFirearm_zero (st : NotifState) (f : FirearmRecordM) (now : Int)
    (hsched : findSchedule st.schedule f.id = none)
    (hflt : notificationIntervals.filter (futureOffset f now) = []) :
    scheduleFirearmNotifications st f now = st := by
  have hnil : buildFirearmNotifs f now st.counter notificationIntervals = [] :=
    List.length_eq_zero.mp (by rw [buildFirearmNotifs_length, hflt]; rfl)
  unfold scheduleFirearmNotifications
  rw [cancelFirearm_not_found st f.id hsched]
  unfold scheduleFirearmCore
  rw [hnil]
  simp only [List.length_nil, lt_irrefl, if_false]
  exact counter_add_zero st

/-- C6: `scheduleFirearmNotifications` schedules exactly one reminder for each
offset in {365, 180, 90, 60, 30, 14, 7, 3, 1} days before expiry whose
reminder instant is still strictly in the future, and no others; when every
offset has passed it schedules zero reminders and leaves the state unchanged;
and a record whose expiry is exactly 10 days from now gets exactly the
offsets {7, 3, 1}. -/
theorem claim_C6_scheduleFirearm (st : NotifState) (f : FirearmRecordM) (now : Int)
    (hpend : ∀ p ∈ st.pending, isForFirearm f.id p = false)
    (hsched : findSchedule st.schedule f.id = none) :
    (((scheduleFirearmNotifications st f now).pending.filter (isForFirearm f.id)).map
        daysToExpiryOf = notificationIntervals.filter (futureOffset f now)) ∧
    ((∀ d ∈ notificationIntervals, futureOffset f now d = false) →
      (scheduleFirearmNotifications st f now).pending.filter (isForFirearm f.id) = [] ∧
      scheduleFirearmNotifications st f now = st) ∧
    (f.expiryDate = now + 10 * dayMs →
      notificationIntervals.filter (futureOffset f now) = [7, 3, 1]) := by
  have hmain := scheduleFirearm_offsets st f now hpend hsched
  refine ⟨hmain, ?_, ?_⟩
  · intro hall
    have hflt : notificationIntervals.filter (futureOffset f now) = [] :=
      List.filter_eq_nil_iff.mpr (fun d hd => by simp [hall d hd])
    constructor
    · have := hmain
      rw [hflt] at this
      exact List.map_eq_nil_iff.mp this
    · exact scheduleFirearm_zero st f now hsched hflt
  · intro hexp
    have hoff : ∀ d ∈ notificationIntervals, futureOffset f now d = decide (d < 10) := by
      intro d _
      unfold futureOffset reminderInstant
      rw [hexp, decide_eq_decide]
      unfold dayMs
      constructor <;> intro <;> omega
    rw [List.filter_congr hoff]
    decide

/-- Witness for C6: fresh state, counter 1000, expiry exactly 10 days after
`now = 0`. -/
theorem claim_C6_witness :
    ((scheduleFirearmNotifications ⟨1000, [], [], []⟩ ⟨"f1", "Rifle", 10 * dayMs, "d"⟩
        0).pending.filter (isForFirearm "f1")).map daysToExpiryOf =
      notificationIntervals.filter (futureOffset ⟨"f1", "Rifle", 10 * dayMs, "d"⟩ 0) ∧
    notificationIntervals.filter (futureOffset ⟨"f1", "Rifle", 10 * dayMs, "d"⟩ 0) = [7, 3, 1] :=
  ⟨(claim_C6_scheduleFirearm ⟨1000, [], [], []⟩ ⟨"f1", "Rifle", 10 * dayMs, "d"⟩ 0
      (by intro p hp; cases hp) (by decide)).1,
   (claim_C6_scheduleFirearm ⟨1000, [], [], []⟩ ⟨"f1", "Rifle", 10 * dayMs, "d"⟩ 0
      (by intro p hp; cases hp) (by decide)).2.2 rfl⟩

theorem findSchedule_none_iff (sch : List NotificationSchedule) (fid : String) :
    findSchedule sch fid = none ↔ ∀ s ∈ sch, s.firearmId ≠ fid := by
  unfold findSchedule
  rw [List.find?_eq_none]
  simp

theorem upsertSchedule_of_none (sch : List NotificationSchedule)
    (entry : NotificationSchedule) (h : findSchedule sch entry.firearmId = none) :
    upsertSchedule sch entry = sch ++ [entry] := by
  have hidx : sch.findIdx? (fun s => decide (s.firearmId = entry.firearmId)) = none :=
    List.findIdx?_eq_none_iff.mpr (fun s hs => by
      simp [(findSchedule_none_iff sch entry.firearmId).mp h s hs])
  simp only [upsertSchedule, hidx]

theorem findSchedule_append_entry (sch : List NotificationSchedule)
    (e : NotificationSchedule) (fid : String) (h : findSchedule sch fid = none)
    (he : e.firearmId = fid) :
    findSchedule (sch ++ [e]) fid = some e := by
  unfold findSchedule at h ⊢
  rw [List.find?_append, h]
  simp [he]

theorem filter_schedule_of_none (sch : List NotificationSchedule) (fid : String)
    (h : findSchedule sch fid = none) :
    sch.filter (fun s => decide (s.firearmId ≠ fid)) = sch :=
  List.filter_eq_self.mpr (fun s hs => by
    simp [(findSchedule_none_iff sch fid).mp h s hs])

theorem scheduleFirearm_closed (st : NotifState) (f : FirearmRecordM) (now : Int)
    (hsched : findSchedule st.schedule f.id = none)
    (hk : 0 < (notificationIntervals.filter (futureOffset f now)).length) :
    scheduleFirearmNotifications st f now =
      { counter := st.counter + (notificationIntervals.filter (futureOffset f now)).length,
        pending := st.pending ++ buildFirearmNotifs f now st.counter notificationIntervals,
        schedule := st.schedule ++ [⟨f.id, f.title, f.expiryDateStr,
          List.range' st.counter (notificationIntervals.filter (futureOffset f now)).length⟩],
        appSchedule := st.appSchedule } := by
  unfold scheduleFirearmNotifications
  rw [cancelFirearm_not_found st f.id hsched]
  unfold scheduleFirearmCore
  rw [if_pos (by rw [buildFirearmNotifs_length]; exact hk)]
  rw [upsertSchedule_of_none st.schedule _ hsched,
    buildFirearmNotifs_map_id f now notificationIntervals st.counter,
    buildFirearmNotifs_length f now notificationIntervals st.counter]

theorem cancel_after_fresh (st : NotifState) (f : FirearmRecordM) (now : Int)
    (hsched : findSchedule st.schedule f.id = none)
    (hctr : ∀ p ∈ st.pending, p.id < st.counter)
    (hk : 0 < (notificationIntervals.filter (futureOffset f now)).length) :
    cancelFirearmNotifications (scheduleFirearmNotifications st f now) f.id =
      { counter := st.counter + (notificationIntervals.filter (futureOffset f now)).length,
        pending := st.pending,
        schedule := st.schedule,
        appSchedule := st.appSchedule } := by
  rw [scheduleFirearm_closed st f now hsched hk]
  set k := (notificationIntervals.filter (futureOffset f now)).length with hkdef
  set N1 := buildFirearmNotifs f now st.counter notificationIntervals with hN1
  set e1 : NotificationSchedule :=
    ⟨f.id, f.title, f.expiryDateStr, List.range' st.counter k⟩ with he1
  have hfind : findSchedule (st.schedule ++ [e1]) f.id = some e1 :=
    findSchedule_append_entry st.schedule e1 f.id hsched rfl
  have hne : e1.notificationIds ≠ [] := by
    simp only [he1]
    intro hcon
    rw [List.range'_eq_nil] at hcon
    omega
  unfold cancelFirearmNotifications
  simp only [hfind, if_pos hne]
  have hpendf : (st.pending ++ N1).filter
      (fun p => decide (p.id ∉ e1.notificationIds)) = st.pending := by
    rw [List.filter_append]
    have h1 : st.pending.filter (fun p => decide (p.id ∉ e1.notificationIds)) = st.pending :=
      List.filter_eq_self.mpr (fun p hp => by
        have := hctr p hp
        simp only [he1, decide_eq_true_eq]
        intro hmem
        rw [List.mem_range'_1] at hmem
        omega)
    have h2 : N1.filter (fun p => decide (p.id ∉ e1.notificationIds)) = [] :=
      List.filter_eq_nil_iff.mpr (fun p hp => by
        have hpid : p.id ∈ N1.map (fun n => n.id) := List.mem_map_of_mem _ hp
        rw [hN1, buildFirearmNotifs_map_id f now notificationIntervals st.counter] at hpid
        simp only [he1, decide_eq_true_eq, not_not]
        exact hpid)
    rw [h1, h2, List.append_nil]
  have hschf : (st.schedule ++ [e1]).filter (fun s => decide (s.firearmId ≠ f.id)) =
      st.schedule := by
    rw [List.filter_append, filter_schedule_of_none st.schedule f.id hsched]
    simp [he1]
  rw [hpendf, hschf]

/-- C7: running `scheduleFirearmNotifications` twice in succession leaves
exactly one live reminder per applicable offset and never duplicates: the
second call first cancels every reminder registered for the record, so the
number of live reminders never exceeds the offset list's size. -/
theorem claim_C7_rescheduleIdempotent (st : NotifState) (f : FirearmRecordM) (now : Int)
    (hpend : ∀ p ∈ st.pending, isForFirearm f.id p = false)
    (hsched : findSchedule st.schedule f.id = none)
    (hctr : ∀ p ∈ st.pending, p.id < st.counter) :
    (((scheduleFirearmNotifications (scheduleFirearmNotifications st f now) f now).pending.filter
        (isForFirearm f.id)).map daysToExpiryOf =
      notificationIntervals.filter (futureOffset f now)) ∧
    ((scheduleFirearmNotifications (scheduleFirearmNotifications st f now) f now).pending.filter
        (isForFirearm f.id)).length ≤ notificationIntervals.length := by
  have hmain : ((scheduleFirearmNotifications (scheduleFirearmNotifications st f now)
      f now).pending.filter (isForFirearm f.id)).map daysToExpiryOf =
      notificationIntervals.filter (futureOffset f now) := by
    by_cases hk : 0 < (notificationIntervals.filter (futureOffset f now)).length
    · have hcan := cancel_after_fresh st f now hsched hctr hk
      have hsecond : scheduleFirearmNotifications (scheduleFirearmNotifications st f now) f now =
          scheduleFirearmNotifications
            { counter := st.counter + (notificationIntervals.filter (futureOffset f now)).length,
              pending := st.pending, schedule := st.schedule,
              appSchedule := st.appSchedule } f now := by
        unfold scheduleFirearmNotifications at hcan ⊢
        rw [hcan, cancelFirearm_not_found
          { counter := st.counter + (notificationIntervals.filter (futureOffset f now)).length,
            pending := st.pending, schedule := st.schedule,
            appSchedule := st.appSchedule } f.id hsched]
      rw [hsecond]
      exact scheduleFirearm_offsets _ f now hpend hsched
    · have hflt : notificationIntervals.filter (futureOffset f now) = [] :=
        List.length_eq_zero.mp (by omega)
      rw [scheduleFirearm_zero st f now hsched hflt]
      exact scheduleFirearm_offsets st f now hpend hsched
  refine ⟨hmain, ?_⟩
  rw [← List.length_map _ daysToExpiryOf, hmain]
  exact List.length_filter_le _ _

/-- Witness for C7: fresh state, counter 1000, expiry 10 days after `now = 0`;
after two scheduling calls exactly the three reminders {7, 3, 1} are live. -/
theorem claim_C7_witness :
    (((scheduleFirearmNotifications
        (scheduleFirearmNotifications ⟨1000, [], [], []⟩ ⟨"f1", "Rifle", 10 * dayMs, "d"⟩ 0)
        ⟨"f1", "Rifle", 10 * dayMs, "d"⟩ 0).pending.filter (isForFirearm "f1")).map
      daysToExpiryOf = notificationIntervals.filter
        (futureOffset ⟨"f1", "Rifle", 10 * dayMs, "d"⟩ 0)) ∧
    ((scheduleFirearmNotifications
        (scheduleFirearmNotifications ⟨1000, [], [], []⟩ ⟨"f1", "Rifle", 10 * dayMs, "d"⟩ 0)
        ⟨"f1", "Rifle", 10 * dayMs, "d"⟩ 0).pending.filter (isForFirearm "f1")).length ≤
      notificationIntervals.length :=
  claim_C7_rescheduleIdempotent ⟨1000, [], [], []⟩ ⟨"f1", "Rifle", 10 * dayMs, "d"⟩ 0
    (by intro p hp; cases hp) (by decide) (by intro p hp; cases hp)

/-- C8: deleting a firearm record (which cascade-calls
`cancelFirearmNotifications`) cancels exactly that record's reminder ids with
the native capability and removes exactly that record's entry from the
persisted schedule, leaving every other record's schedule entry and live
reminders unchanged, and touching neither the counter nor the application
schedule. -/
theorem claim_C8_cancelFirearm (st : NotifState) (fid : String) (e : NotificationSchedule)
    (hfind : findSchedule st.schedule fid = some e)
    (hne : e.notificationIds ≠ [])
    (htrack : ∀ p ∈ st.pending, isForFirearm fid p = true → p.id ∈ e.notificationIds)
    (hothers : ∀ p ∈ st.pending, isForFirearm fid p = false → p.id ∉ e.notificationIds) :
    ((cancelFirearmNotifications st fid).pending =
      st.pending.filter (fun p => decide (p.id ∉ e.notificationIds))) ∧
    (∀ p ∈ st.pending, p.id ∈ e.notificationIds →
      p ∉ (cancelFirearmNotifications st fid).pending) ∧
    (∀ p ∈ (cancelFirearmNotifications st fid).pending, isForFirearm fid p = false) ∧
    (∀ p ∈ st.pending, isForFirearm fid p = false →
      p ∈ (cancelFirearmNotifications st fid).pending) ∧
    ((cancelFirearmNotifications st fid).schedule =
      st.schedule.filter (fun s => decide (s.firearmId ≠ fid))) ∧
    (∀ s ∈ st.schedule, s.firearmId ≠ fid → s ∈ (cancelFirearmNotifications st fid).schedule) ∧
    (cancelFirearmNotifications st fid).appSchedule = st.appSchedule ∧
    (cancelFirearmNotifications st fid).counter = st.counter := by
  have hc : cancelFirearmNotifications st fid =
      { st with
        pending := st.pending.filter (fun p => decide (p.id ∉ e.notificationIds)),
        schedule := st.schedule.filter (fun s => decide (s.firearmId ≠ fid)) } := by
    unfold cancelFirearmNotifications
    simp only [hfind]
    rw [if_pos hne]
  rw [hc]
  refine ⟨rfl, ?_, ?_, ?_, rfl, ?_, rfl, rfl⟩
  · intro p _ hpid hpmem
    rw [List.mem_filter] at hpmem
    simp only [decide_eq_true_eq] at hpmem
    exact hpmem.2 hpid
  · intro p hp
    rw [List.mem_filter] at hp
    simp only [decide_eq_true_eq] at hp
    obtain ⟨hpmem, hpid⟩ := hp
    cases hcase : isForFirearm fid p with
    | false => rfl
    | true => exact absurd (htrack p hpmem hcase) hpid
  · intro p hpmem hpfalse
    rw [List.mem_filter]
    exact ⟨hpmem, by simp [hothers p hpmem hpfalse]⟩
  · intro s hs hsne
    rw [List.mem_filter]
    exact ⟨hs, by simp [hsne]⟩

/-- Witness for C8: a state tracking two firearms; cancelling `f1` removes
its reminder and schedule entry and leaves those of `f2` untouched. -/
theorem claim_C8_witness :
    cancelFirearmNotifications
        ⟨1005,
         [⟨1000, "t", "b", 5, .firearm "f1" 7⟩, ⟨1002, "u", "c", 9, .firearm "f2" 3⟩],
         [⟨"f1", "A", "d1", [1000, 1001]⟩, ⟨"f2", "B", "d2", [1002]⟩], []⟩ "f1" =
      ⟨1005, [⟨1002, "u", "c", 9, .firearm "f2" 3⟩], [⟨"f2", "B", "d2", [1002]⟩], []⟩ ∧
    (∀ p ∈ (cancelFirearmNotifications
        ⟨1005,
         [⟨1000, "t", "b", 5, .firearm "f1" 7⟩, ⟨1002, "u", "c", 9, .firearm "f2" 3⟩],
         [⟨"f1", "A", "d1", [1000, 1001]⟩, ⟨"f2", "B", "d2", [1002]⟩], []⟩ "f1").pending,
      isForFirearm "f1" p = false) :=
  ⟨by decide,
   (claim_C8_cancelFirearm
      ⟨1005,
       [⟨1000, "t", "b", 5, .firearm "f1" 7⟩, ⟨1002, "u", "c", 9, .firearm "f2" 3⟩],
       [⟨"f1", "A", "d1", [1000, 1001]⟩, ⟨"f2", "B", "d2", [1002]⟩], []⟩ "f1"
      ⟨"f1", "A", "d1", [1000, 1001]⟩ (by decide) (by decide) (by decide)
      (by decide)).2.2.1⟩

/-! ### Application pending notifications -/

/-- The working-days-pending of an application at day `nowDay`
(`calculateWorkingDays(applicationDate, today)`). -/
def appWorkingDays (a : FirearmApplicationM) (nowDay : Int) : Nat :=
  calculateWorkingDays a.dateApplied nowDay

/-- The scheduling guard `workingDaysPending >= 88`. -/
def appQualifies (nowDay : Int) (a : FirearmApplicationM) : Bool :=
  decide (88 ≤ appWorkingDays a nowDay)

/-- The fire instant chosen by `scheduleApplicationNotifications`: one minute
from now when already at 90+ working days, otherwise `(92 − pending)` calendar
days from now (the projected 90-working-day crossing with a fixed
2-working-day buffer converted to calendar time). -/
def appFireAt (nowDay nowMs : Int) (a : FirearmApplicationM) : Int :=
  if 90 ≤ appWorkingDays a nowDay then nowMs + 60000
  else nowMs + (92 - (appWorkingDays a nowDay : Int)) * dayMs

/-- The `daysText` shown in the notification body. -/
def appDaysText (wdp : Nat) : String :=
  if 90 ≤ wdp then toString wdp ++ " working days" else "90+ working days"

/-- The notification object pushed for one qualifying application. -/
def mkAppNotif (a : FirearmApplicationM) (id : Nat) (nowDay nowMs : Int) : PendingNotif :=
  { id := id, title := "Application Pending Alert",
    body := "Your firearm application " ++ a.applicationRefNumber ++
      " has been pending for " ++ appDaysText (appWorkingDays a nowDay) ++
      ". Consider following up with SAPS.",
    fireAt := appFireAt nowDay nowMs a,
    extra := .appPending a.id (appWorkingDays a nowDay) }

/-- The `for (const app of applications)` loop of
`scheduleApplicationNotifications`: push a notification and a schedule entry
for each application at 88+ working days, taking the next counter value as
id. -/
def buildAppNotifs (nowDay nowMs : Int) :
    Nat → List FirearmApplicationM →
      List PendingNotif × List ApplicationNotificationSchedule
  | _, [] => ([], [])
  | ctr, a :: rest =>
    if appQualifies nowDay a then
      let r := buildAppNotifs nowDay nowMs (ctr + 1) rest
      (mkAppNotif a ctr nowDay nowMs :: r.1, ⟨a.id, a.applicationRefNumber, ctr⟩ :: r.2)
    else buildAppNotifs nowDay nowMs ctr rest

/-- `cancelAllApplicationNotifications` from `services/notificationService.ts`:
cancel every tracked application reminder id with the native capability and
clear the persisted application schedule. -/
def cancelAllApplicationNotifications (st : NotifState) : NotifState :=
  { st with
    pending := st.pending.filter
      (fun p => decide (p.id ∉ st.appSchedule.map (fun s => s.notificationId))),
    appSchedule := [] }

/-- `scheduleApplicationNotifications` from `services/notificationService.ts`:
cancel all tracked application reminders, rebuild the set from the supplied
applications, and persist the new schedule when any notification was
produced. -/
def scheduleApplicationNotifications (st : NotifState) (apps : List FirearmApplicationM)
    (nowDay nowMs : Int) : NotifState :=
  let st1 := cancelAllApplicationNotifications st
  let r := buildAppNotifs nowDay nowMs st1.counter apps
  if 0 < r.1.length then
    { st1 with
      counter := st1.counter + r.1.length,
      pending := st1.pending ++ r.1,
      appSchedule := r.2 }
  else st1

/-- Is this pending notification an application-pending reminder? -/
def isAppNotif (p : PendingNotif) : Bool :=
  match p.extra with
  | .appPending _ _ => true
  | .firearm _ _ => false

/-- The application id carried in an application reminder's `extra`. -/
def appIdOf (p : PendingNotif) : String :=
  match p.extra with
  | .appPending i _ => i
  | .firearm _ _ => ""

theorem buildAppNotifs_fst_map (nowDay nowMs : Int) :
    ∀ (apps : List FirearmApplicationM) (ctr : Nat),
      (buildAppNotifs nowDay nowMs ctr apps).1.map (fun p => (appIdOf p, p.fireAt)) =
        (apps.filter (appQualifies nowDay)).map (fun a => (a.id, appFireAt nowDay nowMs a)) := by
  intro apps
  induction apps with
  | nil => intro ctr; rfl
  | cons a rest ih =>
    intro ctr
    unfold buildAppNotifs
    cases hq : appQualifies nowDay a with
    | false =>
      rw [if_neg (by simp [hq]), ih ctr, List.filter_cons_of_neg (by simp [hq])]
    | true =>
      rw [if_pos rfl, List.filter_cons_of_pos hq]
      simp only [List.map_cons, ih (ctr + 1)]
      rfl

theorem buildAppNotifs_snd_map (nowDay nowMs : Int) :
    ∀ (apps : List FirearmApplicationM) (ctr : Nat),
      (buildAppNotifs nowDay nowMs ctr apps).2.map (fun s => s.applicationId) =
        (apps.filter (appQualifies nowDay)).map (fun a => a.id) := by
  intro apps
  induction apps with
  | nil => intro ctr; rfl
  | cons a rest ih =>
    intro ctr
    unfold buildAppNotifs
    cases hq : appQualifies nowDay a with
    | false =>
      rw [if_neg (by simp [hq]), ih ctr, List.filter_cons_of_neg (by simp [hq])]
    | true =>
      rw [if_pos rfl, List.filter_cons_of_pos hq]
      simp only [List.map_cons, ih (ctr + 1)]

theorem buildAppNotifs_fst_length (nowDay nowMs : Int) (apps : List FirearmApplicationM)
    (ctr : Nat) :
    (buildAppNotifs nowDay nowMs ctr apps).1.length =
      (apps.filter (appQualifies nowDay)).length := by
  rw [← List.length_map (buildAppNotifs nowDay nowMs ctr apps).1 (fun p => (appIdOf p, p.fireAt)),
    buildAppNotifs_fst_map, List.length_map]

theorem buildAppNotifs_mem (nowDay nowMs : Int) :
    ∀ (apps : List FirearmApplicationM) (ctr : Nat) (p : PendingNotif),
      p ∈ (buildAppNotifs nowDay nowMs ctr apps).1 → isAppNotif p = true ∧ ctr ≤ p.id := by
  intro apps
  induction apps with
  | nil => intro ctr p hp; cases hp
  | cons a rest ih =>
    intro ctr p hp
    unfold buildAppNotifs at hp
    by_cases hq : appQualifies nowDay a = true
    · rw [if_pos hq] at hp
      rcases List.mem_cons.mp hp with hp | hp
      · subst hp
        exact ⟨rfl, le_refl _⟩
      · obtain ⟨h1, h2⟩ := ih (ctr + 1) p hp
        exact ⟨h1, by omega⟩
    · rw [if_neg hq] at hp
      exact ih ctr p hp

theorem scheduleApp_pos (st : NotifState) (apps : List FirearmApplicationM)
    (nowDay nowMs : Int)
    (hlen : 0 < (buildAppNotifs nowDay nowMs st.counter apps).1.length) :
    scheduleApplicationNotifications st apps nowDay nowMs =
      { counter := st.counter + (buildAppNotifs nowDay nowMs st.counter apps).1.length,
        pending := (cancelAllApplicationNotifications st).pending ++
          (buildAppNotifs nowDay nowMs st.counter apps).1,
        schedule := st.schedule,
        appSchedule := (buildAppNotifs nowDay nowMs st.counter apps).2 } := by
  unfold scheduleApplicationNotifications cancelAllApplicationNotifications
  dsimp only
  rw [if_pos hlen]

theorem scheduleApp_neg (st : NotifState) (apps : List FirearmApplicationM)
    (nowDay nowMs : Int)
    (hlen : ¬ 0 < (buildAppNotifs nowDay nowMs st.counter apps).1.length) :
    scheduleApplicationNotifications st apps nowDay nowMs =
      cancelAllApplicationNotifications st := by
  unfold scheduleApplicationNotifications cancelAllApplicationNotifications
  dsimp only
  rw [if_neg hlen]

/-- C9: `scheduleApplicationNotifications` fully replaces the
application-reminder set (cancel-all then rebuild) and schedules a reminder
exactly for the applications whose working-days-pending is at least 88: when
already at least 90 the reminder is near-now (one minute), otherwise it is
timed `(92 − pending)` calendar days out — the projected 90-working-day
crossing approximated with a fixed 2-working-day buffer in calendar time. -/
theorem claim_C9_scheduleApplications (st : NotifState) (apps : List FirearmApplicationM)
    (nowDay nowMs : Int)
    (htrack : ∀ p ∈ st.pending, isAppNotif p = true →
      p.id ∈ st.appSchedule.map (fun s => s.notificationId))
    (hctr : ∀ p ∈ st.pending, p.id < st.counter) :
    ((scheduleApplicationNotifications st apps nowDay nowMs).appSchedule.map
        (fun s => s.applicationId) =
      (apps.filter (appQualifies nowDay)).map (fun a => a.id)) ∧
    (((scheduleApplicationNotifications st apps nowDay nowMs).pending.filter isAppNotif).map
        (fun p => (appIdOf p, p.fireAt)) =
      (apps.filter (appQualifies nowDay)).map (fun a => (a.id, appFireAt nowDay nowMs a))) ∧
    (∀ a : FirearmApplicationM, appQualifies nowDay a = true ↔ 88 ≤ appWorkingDays a nowDay) ∧
    (∀ a : FirearmApplicationM,
      (90 ≤ appWorkingDays a nowDay → appFireAt nowDay nowMs a = nowMs + 60000) ∧
      (appWorkingDays a nowDay < 90 →
        appFireAt nowDay nowMs a = nowMs + (92 - (appWorkingDays a nowDay : Int)) * dayMs)) ∧
    (∀ p ∈ st.pending, p.id ∈ st.appSchedule.map (fun s => s.notificationId) →
      p ∉ (scheduleApplicationNotifications st apps nowDay nowMs).pending) := by
  have hpend1 : (cancelAllApplicationNotifications st).pending.filter isAppNotif = [] := by
    apply List.filter_eq_nil_iff.mpr
    intro p hp
    unfold cancelAllApplicationNotifications at hp
    dsimp only at hp
    rw [List.mem_filter] at hp
    simp only [decide_eq_true_eq] at hp
    obtain ⟨hpmem, hpid⟩ := hp
    intro hisapp
    exact hpid (htrack p hpmem hisapp)
  refine ⟨?_, ?_, ?_, ?_, ?_⟩
  · by_cases hlen : 0 < (buildAppNotifs nowDay nowMs st.counter apps).1.length
    · rw [scheduleApp_pos st apps nowDay nowMs hlen]
      exact buildAppNotifs_snd_map nowDay nowMs apps st.counter
    · rw [scheduleApp_neg st apps nowDay nowMs hlen]
      have hnil : apps.filter (appQualifies nowDay) = [] :=
        List.length_eq_zero.mp
          (by rw [← buildAppNotifs_fst_length nowDay nowMs apps st.counter]; omega)
      rw [hnil]
      rfl
  · by_cases hlen : 0 < (buildAppNotifs nowDay nowMs st.counter apps).1.length
    · rw [scheduleApp_pos st apps nowDay nowMs hlen]
      dsimp only
      rw [List.filter_append, hpend1,
        List.filter_eq_self.mpr
          (fun p hp => (buildAppNotifs_mem nowDay nowMs apps st.counter p hp).1),
        List.nil_append]
      exact buildAppNotifs_fst_map nowDay nowMs apps st.counter
    · rw [scheduleApp_neg st apps nowDay nowMs hlen]
      have hnil : apps.filter (appQualifies nowDay) = [] :=
        List.length_eq_zero.mp
          (by rw [← buildAppNotifs_fst_length nowDay nowMs apps st.counter]; omega)
      rw [hpend1, hnil]
      rfl
  · intro a
    unfold appQualifies
    simp
  · intro a
    constructor
    · intro h
      unfold appFireAt
      rw [if_pos h]
    · intro h
      unfold appFireAt
      rw [if_neg (by omega)]
  · intro p hpmem hpid
    have hpnot1 : p ∉ (cancelAllApplicationNotifications st).pending := by
      unfold cancelAllApplicationNotifications
      dsimp only
      rw [List.mem_filter]
      simp only [decide_eq_true_eq]
      intro hcon
      exact hcon.2 hpid
    by_cases hlen : 0 < (buildAppNotifs nowDay nowMs st.counter apps).1.length
    · rw [scheduleApp_pos st apps nowDay nowMs hlen]
      dsimp only
      rw [List.mem_append]
      rintro (hc | hc)
      · exact hpnot1 hc
      · have h1 := (buildAppNotifs_mem nowDay nowMs apps st.counter p hc).2
        have h2 := hctr p hpmem
        omega
    · rw [scheduleApp_neg st apps nowDay nowMs hlen]
      exact hpnot1

set_option maxRecDepth 8000 in
/-- Witness for C9: at day 133 (with `nowMs = 0`) an application applied on
day 0 has 91 working days pending, so it gets an immediate (one-minute)
reminder, while one applied on day 130 does not qualify. -/
theorem claim_C9_witness :
    ((scheduleApplicationNotifications ⟨1000, [], [], []⟩
        [⟨"a1", "REF1", 0⟩, ⟨"a2", "REF2", 130⟩] 133 0).appSchedule.map
      (fun s => s.applicationId) =
      (([⟨"a1", "REF1", 0⟩, ⟨"a2", "REF2", 130⟩] :
        List FirearmApplicationM).filter (appQualifies 133)).map (fun a => a.id)) ∧
    (([⟨"a1", "REF1", 0⟩, ⟨"a2", "REF2", 130⟩] :
        List FirearmApplicationM).filter (appQualifies 133)).map (fun a => a.id) = ["a1"] ∧
    appWorkingDays ⟨"a1", "REF1", 0⟩ 133 = 91 ∧
    appFireAt 133 0 ⟨"a1", "REF1", 0⟩ = 60000 :=
  ⟨(claim_C9_scheduleApplications ⟨1000, [], [], []⟩
      [⟨"a1", "REF1", 0⟩, ⟨"a2", "REF2", 130⟩] 133 0
      (by intro p hp; cases hp) (by intro p hp; cases hp)).1,
   by decide, by decide, by decide⟩

end Backlog
